import Mathlib

/-!
Verification of the step-sequencing state machine and tooltip geometry of
`QtGuidedUI` (`src/QtGuidedUI/core.py`).

The embedding models:
* a `Step` record (one entry of the JSON `steps` list),
* the `InteractiveGuide` constructor's sorting of steps (`core.py` line 89),
* the mutable guide state (`current_step_index`, `current_widget`,
  `current_widget_original_style`) together with the widget tree's
  style-sheet map,
* the operations `start`, `next_step`, `next_step_action`,
  `skip_guide_action`, `highlight_widget`, `restore_widget_style`,
* the pure geometry of `_calculate_tooltip_position`.

Host-side behaviour that the guide only observes (widget lookup by
`findChild`, whether a `pre_action` attribute is callable, whether calling
it raises) is abstracted into an `Env` record of oracles, and observable
effects (dialogs, log warnings, highlighting, tooltips) are collected into
an event trace.
-/

namespace QtGuidedUI

/-- One step of the guide configuration: the fields of a `steps` entry that
`core.py` reads (`order`, `object_name`, `pre_action`, `description`,
`image`).  Every field is optional, matching `dict.get`. -/
structure Step where
  order : Option Int
  object_name : Option String
  pre_action : Option String
  description : Option String
  image : Option String
deriving DecidableEq, Repr

/-- The sort key used at `core.py` line 89: `x.get("order", 0)`. -/
def stepKey (st : Step) : Int :=
  st.order.getD 0

/-- The guide configuration document (`guide_data`). -/
structure GuideData where
  steps : List Step
  intro_message : Option String
  outro_message : Option String
  dialog_image_width : Option Int

/-- The step list built by `InteractiveGuide.__init__` (line 89):
`sorted(guide_data.get("steps", []), key=lambda x: x.get("order", 0))`. -/
def initSteps (gd : GuideData) : List Step :=
  gd.steps.mergeSort (fun a b => stepKey a ≤ stepKey b)

/-- Host-side oracles: `parent_widget.findChild(QWidget, name)` (a found
widget is represented by its object name), whether
`getattr(parent_widget, pre_action, None)` is callable, and whether calling
it raises an exception. -/
structure Env where
  findChild : Option String → Option String
  callable : String → Bool
  raises : String → Bool

/-- Mutable state of an `InteractiveGuide` run, together with the style
sheets of the host widget tree (indexed by widget object name). -/
structure GuideState where
  current_step_index : Int
  current_widget : Option String
  current_widget_original_style : Option String
  styles : String → String

/-- Observable effects of the guide, in program order. -/
inductive Event where
  | introDialog
  | outroDialog
  | preActionCall (name : String)
  | warnPreActionFailed (name : String)
  | warnPreActionNotCallable (name : String)
  | warnWidgetNotFound (name : Option String)
  | highlightEvent (w : String)
  | tooltip (w : String) (st : Step)
  | toolTipText (msg : String)
deriving DecidableEq, Repr

/-- The state set up by `InteractiveGuide.__init__` (lines 94-96):
`current_step_index = -1`, no current widget, no saved style. -/
def initState (base : String → String) : GuideState :=
  { current_step_index := -1
    current_widget := none
    current_widget_original_style := none
    styles := base }

/-- The style sheet installed by `highlight_widget` (line 208). -/
def highlightStyle : String := "border: 3px solid green;"

/-- Model of `InteractiveGuide.highlight_widget` (lines 199-208): record the widget,
save its current style sheet, and overwrite the style sheet. -/
def highlight_widget (s : GuideState) (w : String) : GuideState :=
  { s with
    current_widget := some w
    current_widget_original_style := some (s.styles w)
    styles := fun v => if v = w then highlightStyle else s.styles v }

/-- Model of `InteractiveGuide.restore_widget_style` (lines 210-218): if a widget is
recorded and a saved style is present, write the saved style back and clear
both fields; otherwise only a warning is logged. -/
def restore_widget_style (s : GuideState) : GuideState :=
  match s.current_widget, s.current_widget_original_style with
  | some w, some orig =>
      { s with
        current_widget := none
        current_widget_original_style := none
        styles := fun v => if v = w then orig else s.styles v }
  | _, _ => s

/-- Python list indexing `xs[i]` (non-negative and negative indices;
`none` models an `IndexError`). -/
def pyGet {α : Type} (xs : List α) (i : Int) : Option α :=
  if 0 ≤ i then xs.get? i.toNat
  else if 0 ≤ i + xs.length then xs.get? (i + xs.length).toNat
  else none

/-- The pre-action block of `next_step` (lines 122-133): nothing happens
when `step.get("pre_action")` is falsy (absent or empty); otherwise the
attribute is called when callable (a raising call also logs a warning), and
a non-callable attribute logs a warning. -/
def runPreAction (env : Env) (pa : Option String) : List Event :=
  match pa with
  | none => []
  | some name =>
    if name = "" then []
    else if env.callable name then
      if env.raises name then [Event.preActionCall name, Event.warnPreActionFailed name]
      else [Event.preActionCall name]
    else [Event.warnPreActionNotCallable name]

/-- The cursor increment `self.current_step_index += 1` (line 109). -/
def bumpIndex (s : GuideState) : GuideState :=
  { s with current_step_index := s.current_step_index + 1 }

@[simp] theorem bumpIndex_current_step_index (s : GuideState) :
    (bumpIndex s).current_step_index = s.current_step_index + 1 := rfl

@[simp] theorem bumpIndex_current_widget (s : GuideState) :
    (bumpIndex s).current_widget = s.current_widget := rfl

@[simp] theorem bumpIndex_current_widget_original_style (s : GuideState) :
    (bumpIndex s).current_widget_original_style = s.current_widget_original_style := rfl

@[simp] theorem bumpIndex_styles (s : GuideState) :
    (bumpIndex s).styles = s.styles := rfl

/-- Model of `InteractiveGuide.next_step` (lines 107-145): increment the cursor;
past the end show the completion dialog and stop; otherwise run the step's
pre-action, look up the target widget, and either recurse (widget missing,
warning logged) or highlight the widget and show the step tooltip.
`none` models the unreachable `IndexError` of `self.steps[i]`. -/
def next_step (steps : List Step) (env : Env) (s0 : GuideState) :
    Option (GuideState × List Event) :=
  let s : GuideState := bumpIndex s0
  if _h : (steps.length : Int) ≤ s.current_step_index then
    some (s, [Event.outroDialog])
  else
    match pyGet steps s.current_step_index with
    | none => none
    | some st =>
      let preEvents := runPreAction env st.pre_action
      match env.findChild st.object_name with
      | none =>
        match next_step steps env s with
        | none => none
        | some (s', evs) =>
          some (s', preEvents ++ Event.warnWidgetNotFound st.object_name :: evs)
      | some w =>
        some (highlight_widget s w,
              preEvents ++ [Event.highlightEvent w, Event.tooltip w st])
termination_by ((steps.length : Int) + 1 - s0.current_step_index).toNat
decreasing_by
  unfold s at *
  simp only [bumpIndex_current_step_index] at *
  omega

/-- Model of `InteractiveGuide.start` (lines 98-105) followed by the intro dialog's
button callback: show the intro dialog, then `next_step`. -/
def start (steps : List Step) (env : Env) (s : GuideState) :
    Option (GuideState × List Event) :=
  match next_step steps env s with
  | none => none
  | some (s', evs) => some (s', Event.introDialog :: evs)

/-- Model of `InteractiveGuide.next_step_action` (lines 175-183): close the dialog,
restore the highlighted widget's style, then `next_step`. -/
def next_step_action (steps : List Step) (env : Env) (s : GuideState) :
    Option (GuideState × List Event) :=
  next_step steps env (restore_widget_style s)

/-- Model of `InteractiveGuide.skip_guide_action` (lines 185-197): close the dialog,
restore the highlighted widget's style, and show a "Guide skipped." tooltip. -/
def skip_guide_action (s : GuideState) : GuideState × List Event :=
  (restore_widget_style s, [Event.toolTipText "Guide skipped."])

/-- A Qt `QPoint` with integer coordinates. -/
structure QPoint where
  x : Int
  y : Int
deriving DecidableEq, Repr

/-- A Qt `QRect`, stored as top-left position and size. -/
structure QRect where
  x : Int
  y : Int
  w : Int
  h : Int
deriving DecidableEq, Repr

/-- Qt `QRect::center`: `((x1 + x2) / 2, (y1 + y2) / 2)` with
`x2 = x + w - 1` and `y2 = y + h - 1`, using C++ truncating integer
division (`Int.tdiv`). -/
def QRect.center (r : QRect) : QPoint :=
  ⟨Int.tdiv (r.x + (r.x + r.w - 1)) 2, Int.tdiv (r.y + (r.y + r.h - 1)) 2⟩

/-- Qt `QRect::topLeft`. -/
def QRect.topLeft (r : QRect) : QPoint := ⟨r.x, r.y⟩

/-- Qt `QRect::bottomLeft`: `(x, y + h - 1)`. -/
def QRect.bottomLeft (r : QRect) : QPoint := ⟨r.x, r.y + r.h - 1⟩

/-- Model of `InteractiveGuide._calculate_tooltip_position` (lines 220-254).
The target widget's local `rect()` is `(0, 0, ww, wh)` and its
`mapToGlobal` adds the widget's global origin `(wgx, wgy)`; the parent
widget's `rect()` is `(0, 0, pw, ph)` with global origin `(pgx, pgy)`;
the dialog size is `(dw, dh)`.  Python's floor division `//` is
`Int.fdiv`. -/
def calculate_tooltip_position (ww wh wgx wgy pw ph pgx pgy dw dh : Int) : QPoint :=
  let widget_rect : QRect := ⟨0, 0, ww, wh⟩
  let widget_center : QPoint :=
    ⟨wgx + widget_rect.center.x, wgy + widget_rect.center.y⟩
  let parent_rect : QRect := ⟨0, 0, pw, ph⟩
  let parent_global_pos : QPoint :=
    ⟨pgx + parent_rect.topLeft.x, pgy + parent_rect.topLeft.y⟩
  let parent_center : QPoint :=
    ⟨parent_global_pos.x + Int.fdiv parent_rect.w 2,
     parent_global_pos.y + Int.fdiv parent_rect.h 2⟩
  let x := widget_center.x - Int.fdiv dw 2
  let y :=
    if widget_center.y < parent_center.y then
      (wgy + widget_rect.bottomLeft.y) + 10
    else
      (wgy + widget_rect.topLeft.y) - dh - 10
  let x :=
    if x < parent_global_pos.x then
      parent_global_pos.x + 10
    else if parent_global_pos.x + parent_rect.w < x + dw then
      parent_global_pos.x + parent_rect.w - dw - 10
    else x
  ⟨x, y⟩

@[simp] theorem highlight_widget_current_step_index (s : GuideState) (w : String) :
    (highlight_widget s w).current_step_index = s.current_step_index := rfl

@[simp] theorem highlight_widget_current_widget (s : GuideState) (w : String) :
    (highlight_widget s w).current_widget = some w := rfl

@[simp] theorem highlight_widget_current_widget_original_style (s : GuideState) (w : String) :
    (highlight_widget s w).current_widget_original_style = some (s.styles w) := rfl

@[simp] theorem restore_widget_style_current_step_index (s : GuideState) :
    (restore_widget_style s).current_step_index = s.current_step_index := by
  unfold restore_widget_style
  split <;> rfl

/-- Recognizes the completion ("Guide Completed" / outro) dialog event. -/
def isOutro : Event → Bool
  | Event.outroDialog => true
  | _ => false

/-- The steps displayed (as tooltip dialogs) in a trace, in order. -/
def tooltipSteps (evs : List Event) : List Step :=
  evs.filterMap fun e =>
    match e with
    | Event.tooltip _ st => some st
    | _ => none

/-- The `order` keys of the steps displayed in a trace, in order. -/
def tooltipOrders (evs : List Event) : List Int :=
  (tooltipSteps evs).map stepKey

@[simp] theorem tooltipSteps_nil : tooltipSteps [] = [] := rfl

@[simp] theorem tooltipSteps_cons_introDialog (evs : List Event) :
    tooltipSteps (Event.introDialog :: evs) = tooltipSteps evs := rfl

@[simp] theorem tooltipSteps_cons_outroDialog (evs : List Event) :
    tooltipSteps (Event.outroDialog :: evs) = tooltipSteps evs := rfl

@[simp] theorem tooltipSteps_cons_preActionCall (n : String) (evs : List Event) :
    tooltipSteps (Event.preActionCall n :: evs) = tooltipSteps evs := rfl

@[simp] theorem tooltipSteps_cons_warnPreActionFailed (n : String) (evs : List Event) :
    tooltipSteps (Event.warnPreActionFailed n :: evs) = tooltipSteps evs := rfl

@[simp] theorem tooltipSteps_cons_warnPreActionNotCallable (n : String) (evs : List Event) :
    tooltipSteps (Event.warnPreActionNotCallable n :: evs) = tooltipSteps evs := rfl

@[simp] theorem tooltipSteps_cons_warnWidgetNotFound (n : Option String) (evs : List Event) :
    tooltipSteps (Event.warnWidgetNotFound n :: evs) = tooltipSteps evs := rfl

@[simp] theorem tooltipSteps_cons_highlightEvent (w : String) (evs : List Event) :
    tooltipSteps (Event.highlightEvent w :: evs) = tooltipSteps evs := rfl

@[simp] theorem tooltipSteps_cons_toolTipText (m : String) (evs : List Event) :
    tooltipSteps (Event.toolTipText m :: evs) = tooltipSteps evs := rfl

@[simp] theorem tooltipSteps_cons_tooltip (w : String) (st : Step) (evs : List Event) :
    tooltipSteps (Event.tooltip w st :: evs) = st :: tooltipSteps evs := rfl

@[simp] theorem tooltipSteps_append (a b : List Event) :
    tooltipSteps (a ++ b) = tooltipSteps a ++ tooltipSteps b :=
  List.filterMap_append a b _

@[simp] theorem countP_isOutro_runPreAction (env : Env) (pa : Option String) :
    (runPreAction env pa).countP isOutro = 0 := by
  unfold runPreAction
  cases pa with
  | none => rfl
  | some n =>
    by_cases h1 : n = "" <;> by_cases h2 : env.callable n <;> by_cases h3 : env.raises n <;>
      simp [h1, h2, h3, isOutro]

@[simp] theorem tooltipSteps_runPreAction (env : Env) (pa : Option String) :
    tooltipSteps (runPreAction env pa) = [] := by
  unfold runPreAction
  cases pa with
  | none => rfl
  | some n =>
    by_cases h1 : n = "" <;> by_cases h2 : env.callable n <;> by_cases h3 : env.raises n <;>
      simp [h1, h2, h3, tooltipSteps]

@[simp] theorem restore_widget_style_current_widget_of_highlighted
    (s : GuideState) (w : String) (orig : String)
    (hw : s.current_widget = some w)
    (ho : s.current_widget_original_style = some orig) :
    restore_widget_style s =
      { s with
        current_widget := none
        current_widget_original_style := none
        styles := fun v => if v = w then orig else s.styles v } := by
  unfold restore_widget_style
  rw [hw, ho]

theorem pyGet_of_nonneg {α : Type} (xs : List α) (i : Int) (h : 0 ≤ i) :
    pyGet xs i = xs.get? i.toNat := by
  unfold pyGet
  rw [if_pos h]

/-- Helper lemma: `next_step` strictly increases `current_step_index`. -/
theorem next_step_index_lt (steps : List Step) (env : Env) (s0 : GuideState) :
    ∀ (s' : GuideState) (evs : List Event),
      next_step steps env s0 = some (s', evs) →
      s0.current_step_index < s'.current_step_index := by
  induction s0 using next_step.induct steps env with
  | case1 x s hlen =>
    intro s' evs h
    have hlen' : (steps.length : Int) ≤ (bumpIndex x).current_step_index := hlen
    rw [next_step.eq_1, dif_pos hlen', Option.some.injEq, Prod.mk.injEq] at h
    obtain ⟨h1, -⟩ := h
    subst h1
    simp
  | case2 x s hlen hget =>
    intro s' evs h
    have hlen' : ¬ (steps.length : Int) ≤ (bumpIndex x).current_step_index := hlen
    have hget' : pyGet steps (bumpIndex x).current_step_index = none := hget
    rw [next_step.eq_1, dif_neg hlen', hget'] at h
    exact absurd h (by simp)
  | case3 x s hlen st hget hfind hrec ih =>
    intro s' evs h
    have hlen' : ¬ (steps.length : Int) ≤ (bumpIndex x).current_step_index := hlen
    have hget' : pyGet steps (bumpIndex x).current_step_index = some st := hget
    have hrec' : next_step steps env (bumpIndex x) = none := hrec
    rw [next_step.eq_1, dif_neg hlen', hget'] at h
    simp only [hfind] at h
    rw [hrec'] at h
    exact absurd h (by simp)
  | case4 x s hlen st hget hfind s1 evs1 hrec ih =>
    intro s' evs h
    have hlen' : ¬ (steps.length : Int) ≤ (bumpIndex x).current_step_index := hlen
    have hget' : pyGet steps (bumpIndex x).current_step_index = some st := hget
    have hrec' : next_step steps env (bumpIndex x) = some (s1, evs1) := hrec
    have ih' : ∀ (s' : GuideState) (evs : List Event),
        next_step steps env (bumpIndex x) = some (s', evs) →
        (bumpIndex x).current_step_index < s'.current_step_index := ih
    rw [next_step.eq_1, dif_neg hlen', hget'] at h
    simp only [hfind] at h
    rw [hrec', Option.some.injEq, Prod.mk.injEq] at h
    obtain ⟨h1, -⟩ := h
    subst h1
    have h2 := ih' s1 evs1 hrec'
    simp only [bumpIndex_current_step_index] at h2
    omega
  | case5 x s hlen st hget w hfind =>
    intro s' evs h
    have hlen' : ¬ (steps.length : Int) ≤ (bumpIndex x).current_step_index := hlen
    have hget' : pyGet steps (bumpIndex x).current_step_index = some st := hget
    rw [next_step.eq_1, dif_neg hlen', hget'] at h
    simp only [hfind] at h
    rw [Option.some.injEq, Prod.mk.injEq] at h
    obtain ⟨h1, -⟩ := h
    subst h1
    simp

/-- From any state with `current_step_index ≥ -1` (all states of a real
run), `next_step` returns: the `IndexError` case is unreachable. -/
theorem next_step_isSome (steps : List Step) (env : Env) (s0 : GuideState) :
    -1 ≤ s0.current_step_index → (next_step steps env s0).isSome := by
  induction s0 using next_step.induct steps env with
  | case1 x s hlen =>
    intro hinit
    have hlen' : (steps.length : Int) ≤ (bumpIndex x).current_step_index := hlen
    rw [next_step.eq_1, dif_pos hlen']
    rfl
  | case2 x s hlen hget =>
    intro hinit
    have hlen' : ¬ (steps.length : Int) ≤ (bumpIndex x).current_step_index := hlen
    have hget' : pyGet steps (bumpIndex x).current_step_index = none := hget
    simp only [bumpIndex_current_step_index] at hlen' hget'
    rw [pyGet_of_nonneg _ _ (by omega)] at hget'
    rw [List.get?_eq_none] at hget'
    omega
  | case3 x s hlen st hget hfind hrec ih =>
    intro hinit
    have hrec' : next_step steps env (bumpIndex x) = none := hrec
    have ih' : -1 ≤ (bumpIndex x).current_step_index →
        (next_step steps env (bumpIndex x)).isSome := ih
    rw [hrec'] at ih'
    exact absurd (ih' (by simp; omega)) (by simp)
  | case4 x s hlen st hget hfind s1 evs1 hrec ih =>
    intro hinit
    have hlen' : ¬ (steps.length : Int) ≤ (bumpIndex x).current_step_index := hlen
    have hget' : pyGet steps (bumpIndex x).current_step_index = some st := hget
    have hrec' : next_step steps env (bumpIndex x) = some (s1, evs1) := hrec
    rw [next_step.eq_1, dif_neg hlen', hget']
    simp only [hfind]
    rw [hrec']
    rfl
  | case5 x s hlen st hget w hfind =>
    intro hinit
    have hlen' : ¬ (steps.length : Int) ≤ (bumpIndex x).current_step_index := hlen
    have hget' : pyGet steps (bumpIndex x).current_step_index = some st := hget
    rw [next_step.eq_1, dif_neg hlen', hget']
    simp only [hfind]
    rfl

/-- Master specification of one `next_step` call from a reachable state:
the index strictly increases; past the end the trace holds exactly one
completion dialog, no tooltip, and the widget/style fields are untouched;
otherwise no completion dialog is shown, exactly the step at the final
index is displayed as a tooltip, and the state has that step's widget
highlighted with its original style saved. -/
theorem next_step_main (steps : List Step) (env : Env) (s0 : GuideState) :
    -1 ≤ s0.current_step_index →
    ∀ (s' : GuideState) (evs : List Event),
      next_step steps env s0 = some (s', evs) →
      s0.current_step_index < s'.current_step_index ∧
      (if (steps.length : Int) ≤ s'.current_step_index then
        evs.countP isOutro = 1 ∧ tooltipSteps evs = [] ∧ Event.outroDialog ∈ evs ∧
        s'.current_widget = s0.current_widget ∧
        s'.current_widget_original_style = s0.current_widget_original_style ∧
        s'.styles = s0.styles
      else
        evs.countP isOutro = 0 ∧ 0 ≤ s'.current_step_index ∧
        (∃ st w, steps.get? s'.current_step_index.toNat = some st ∧
          tooltipSteps evs = [st] ∧ Event.tooltip w st ∈ evs ∧
          s'.current_widget = some w ∧
          s'.current_widget_original_style = some (s0.styles w) ∧
          s'.styles = fun v => if v = w then highlightStyle else s0.styles v)) := by
  induction s0 using next_step.induct steps env with
  | case1 x s hlen =>
    intro hinit s' evs h
    have hlen' : (steps.length : Int) ≤ (bumpIndex x).current_step_index := hlen
    rw [next_step.eq_1, dif_pos hlen', Option.some.injEq, Prod.mk.injEq] at h
    obtain ⟨h1, h2⟩ := h
    subst h1
    subst h2
    refine ⟨by simp, ?_⟩
    rw [if_pos hlen']
    exact ⟨by simp [isOutro], rfl, by simp, rfl, rfl, rfl⟩
  | case2 x s hlen hget =>
    intro hinit s' evs h
    have hlen' : ¬ (steps.length : Int) ≤ (bumpIndex x).current_step_index := hlen
    have hget' : pyGet steps (bumpIndex x).current_step_index = none := hget
    simp only [bumpIndex_current_step_index] at hlen' hget'
    rw [pyGet_of_nonneg _ _ (by omega)] at hget'
    rw [List.get?_eq_none] at hget'
    omega
  | case3 x s hlen st hget hfind hrec ih =>
    intro hinit s' evs h
    have hrec' : next_step steps env (bumpIndex x) = none := hrec
    have hsome := next_step_isSome steps env (bumpIndex x) (by simp; omega)
    rw [hrec'] at hsome
    exact absurd hsome (by simp)
  | case4 x s hlen st hget hfind s1 evs1 hrec ih =>
    intro hinit s' evs h
    have hlen' : ¬ (steps.length : Int) ≤ (bumpIndex x).current_step_index := hlen
    have hget' : pyGet steps (bumpIndex x).current_step_index = some st := hget
    have hrec' : next_step steps env (bumpIndex x) = some (s1, evs1) := hrec
    have ih' : (bumpIndex x).current_step_index < s1.current_step_index ∧
        (if (steps.length : Int) ≤ s1.current_step_index then
          evs1.countP isOutro = 1 ∧ tooltipSteps evs1 = [] ∧ Event.outroDialog ∈ evs1 ∧
          s1.current_widget = (bumpIndex x).current_widget ∧
          s1.current_widget_original_style = (bumpIndex x).current_widget_original_style ∧
          s1.styles = (bumpIndex x).styles
        else
          evs1.countP isOutro = 0 ∧ 0 ≤ s1.current_step_index ∧
          (∃ st w, steps.get? s1.current_step_index.toNat = some st ∧
            tooltipSteps evs1 = [st] ∧ Event.tooltip w st ∈ evs1 ∧
            s1.current_widget = some w ∧
            s1.current_widget_original_style = some ((bumpIndex x).styles w) ∧
            s1.styles = fun v => if v = w then highlightStyle else (bumpIndex x).styles v)) :=
      (fun (a : -1 ≤ (bumpIndex x).current_step_index) => ih a s1 evs1 hrec')
        (by simp; omega)
    rw [next_step.eq_1, dif_neg hlen', hget'] at h
    simp only [hfind] at h
    rw [hrec', Option.some.injEq, Prod.mk.injEq] at h
    obtain ⟨h1, h2⟩ := h
    subst h1
    subst h2
    obtain ⟨hlt, hrest⟩ := ih'
    simp only [bumpIndex_current_step_index, bumpIndex_styles, bumpIndex_current_widget,
      bumpIndex_current_widget_original_style] at hlt hrest
    refine ⟨by omega, ?_⟩
    by_cases hc : (steps.length : Int) ≤ s1.current_step_index
    · rw [if_pos hc]
      rw [if_pos hc] at hrest
      obtain ⟨hcount, htool, hmem, hw, ho, hs⟩ := hrest
      refine ⟨?_, ?_, ?_, hw, ho, hs⟩
      · simp [List.countP_append, List.countP_cons, isOutro, hcount]
      · simp [htool]
      · simp [hmem]
    · rw [if_neg hc]
      rw [if_neg hc] at hrest
      obtain ⟨hcount, hpos, st2, w, hg2, htool, hmem, hw, ho, hs⟩ := hrest
      refine ⟨?_, hpos, st2, w, hg2, ?_, ?_, hw, ho, hs⟩
      · simp [List.countP_append, List.countP_cons, isOutro, hcount]
      · simp [htool]
      · simp [hmem]
  | case5 x s hlen st hget w hfind =>
    intro hinit s' evs h
    have hlen' : ¬ (steps.length : Int) ≤ (bumpIndex x).current_step_index := hlen
    have hget' : pyGet steps (bumpIndex x).current_step_index = some st := hget
    rw [next_step.eq_1, dif_neg hlen', hget'] at h
    simp only [hfind] at h
    rw [Option.some.injEq, Prod.mk.injEq] at h
    obtain ⟨h1, h2⟩ := h
    subst h1
    subst h2
    refine ⟨by simp, ?_⟩
    simp only [bumpIndex_current_step_index] at hlen' hget'
    rw [pyGet_of_nonneg _ _ (by omega)] at hget'
    rw [if_neg (by simp; omega)]
    refine ⟨?_, by simp; omega, st, w, ?_, ?_, ?_, ?_, ?_, ?_⟩
    · simp [List.countP_append, List.countP_cons, isOutro]
    · simpa using hget'
    · simp
    · simp
    · rfl
    · rfl
    · rfl


/-- A guide run driven to completion: the first advance comes from the
intro dialog's callback, and after each displayed step the user presses
"Next" (`next_step_action` = restore style, then `next_step`); the run
ends when the completion dialog is shown. -/
def run_to_completion (steps : List Step) (env : Env) (s : GuideState) :
    Option (GuideState × List Event) :=
  match h : next_step steps env s with
  | none => none
  | some (s', evs) =>
    if hlt : s'.current_step_index < (steps.length : Int) then
      match run_to_completion steps env (restore_widget_style s') with
      | none => none
      | some (s'', evs') => some (s'', evs ++ evs')
    else
      some (s', evs)
termination_by ((steps.length : Int) - s.current_step_index).toNat
decreasing_by
  have := next_step_index_lt steps env s s' evs h
  simp only [restore_widget_style_current_step_index]
  omega

theorem run_to_completion_isSome (steps : List Step) (env : Env) (s : GuideState) :
    -1 ≤ s.current_step_index → (run_to_completion steps env s).isSome := by
  induction s using run_to_completion.induct steps env with
  | case1 x hnone =>
    intro hinit
    have hsome := next_step_isSome steps env x hinit
    rw [hnone] at hsome
    exact absurd hsome (by simp)
  | case2 x s' evs hn hlt hrec ih =>
    intro hinit
    have hidx := next_step_index_lt steps env x s' evs hn
    have h2 := ih (by simp only [restore_widget_style_current_step_index]; omega)
    rw [hrec] at h2
    exact absurd h2 (by simp)
  | case3 x s' evs hn hlt s'' evs' hrec ih =>
    intro hinit
    rw [run_to_completion.eq_1, hn]
    simp [hlt, hrec]
  | case4 x s' evs hn hlt =>
    intro hinit
    rw [run_to_completion.eq_1, hn]
    simp [hlt]



theorem run_to_completion_outro_once (steps : List Step) (env : Env) (s : GuideState) :
    -1 ≤ s.current_step_index →
    ∀ (s'' : GuideState) (evs : List Event),
      run_to_completion steps env s = some (s'', evs) →
      evs.countP isOutro = 1 := by
  induction s using run_to_completion.induct steps env with
  | case1 x hnone =>
    intro hinit s'' evs h
    rw [run_to_completion.eq_1, hnone] at h
    exact absurd h (by simp)
  | case2 x s' evs hn hlt hrec ih =>
    intro hinit s'' evs2 h
    have hidx := next_step_index_lt steps env x s' evs hn
    have h2 := run_to_completion_isSome steps env (restore_widget_style s')
      (by simp only [restore_widget_style_current_step_index]; omega)
    rw [hrec] at h2
    exact absurd h2 (by simp)
  | case3 x s' evs hn hlt s'' evs' hrec ih =>
    intro hinit sf evsf h
    rw [run_to_completion.eq_1, hn] at h
    simp only [dif_pos hlt, hrec] at h
    rw [Option.some.injEq, Prod.mk.injEq] at h
    obtain ⟨h1, h2⟩ := h
    subst h1
    subst h2
    have hmain := next_step_main steps env x hinit s' evs hn
    rw [if_neg (by omega)] at hmain
    obtain ⟨-, hcount, -⟩ := hmain
    have hidx := next_step_index_lt steps env x s' evs hn
    have hr := ih (by simp only [restore_widget_style_current_step_index]; omega) s'' evs' hrec
    rw [List.countP_append, hcount, hr]
  | case4 x s' evs hn hlt =>
    intro hinit sf evsf h
    rw [run_to_completion.eq_1, hn] at h
    simp only [dif_neg hlt] at h
    rw [Option.some.injEq, Prod.mk.injEq] at h
    obtain ⟨h1, h2⟩ := h
    subst h1
    subst h2
    have hmain := next_step_main steps env x hinit s' evs hn
    rw [if_pos (by omega)] at hmain
    exact hmain.2.1



theorem run_to_completion_sorted_visits (steps : List Step) (env : Env)
    (hsort : steps.Pairwise (fun a b => stepKey a ≤ stepKey b)) (s : GuideState) :
    -1 ≤ s.current_step_index →
    ∀ (sf : GuideState) (evs : List Event),
      run_to_completion steps env s = some (sf, evs) →
      List.Pairwise (· ≤ ·) (tooltipOrders evs) ∧
      (∀ o ∈ tooltipOrders evs, ∃ (j : Nat) (st : Step),
        steps.get? j = some st ∧ o = stepKey st ∧ s.current_step_index < (j : Int)) := by
  induction s using run_to_completion.induct steps env with
  | case1 x hnone =>
    intro hinit sf evs h
    rw [run_to_completion.eq_1, hnone] at h
    exact absurd h (by simp)
  | case2 x s' evs hn hlt hrec ih =>
    intro hinit sf evs2 h
    have hidx := next_step_index_lt steps env x s' evs hn
    have h2 := run_to_completion_isSome steps env (restore_widget_style s')
      (by simp only [restore_widget_style_current_step_index]; omega)
    rw [hrec] at h2
    exact absurd h2 (by simp)
  | case3 x s' evs hn hlt s'' evs' hrec ih =>
    intro hinit sf evsf h
    rw [run_to_completion.eq_1, hn] at h
    simp only [dif_pos hlt, hrec] at h
    rw [Option.some.injEq, Prod.mk.injEq] at h
    obtain ⟨h1, h2⟩ := h
    subst h1
    subst h2
    have hidx := next_step_index_lt steps env x s' evs hn
    have hmain := next_step_main steps env x hinit s' evs hn
    rw [if_neg (by omega)] at hmain
    obtain ⟨-, -, hpos, st, w, hget, htool, -⟩ := hmain
    obtain ⟨hpw', hbound'⟩ := ih (by simp only [restore_widget_style_current_step_index]; omega)
      s'' evs' hrec
    simp only [restore_widget_style_current_step_index] at hbound'
    have horders : tooltipOrders (evs ++ evs') = stepKey st :: tooltipOrders evs' := by
      unfold tooltipOrders
      rw [tooltipSteps_append, htool]
      simp
    rw [horders]
    constructor
    · rw [List.pairwise_cons]
      refine ⟨?_, hpw'⟩
      intro o ho
      obtain ⟨j, st2, hg2, ho2, hjgt⟩ := hbound' o ho
      obtain ⟨hi, hgeti⟩ := List.get?_eq_some.mp hget
      obtain ⟨hj, hgetj⟩ := List.get?_eq_some.mp hg2
      have hij : s'.current_step_index.toNat < j := by omega
      have := List.pairwise_iff_get.mp hsort ⟨s'.current_step_index.toNat, hi⟩ ⟨j, hj⟩
        (by exact hij)
      rw [hgeti, hgetj] at this
      rw [ho2]
      exact this
    · intro o ho
      rw [List.mem_cons] at ho
      rcases ho with ho | ho
      · exact ⟨s'.current_step_index.toNat, st, hget, ho, by omega⟩
      · obtain ⟨j, st2, hg2, ho2, hjgt⟩ := hbound' o ho
        exact ⟨j, st2, hg2, ho2, by omega⟩
  | case4 x s' evs hn hlt =>
    intro hinit sf evsf h
    rw [run_to_completion.eq_1, hn] at h
    simp only [dif_neg hlt] at h
    rw [Option.some.injEq, Prod.mk.injEq] at h
    obtain ⟨h1, h2⟩ := h
    subst h1
    subst h2
    have hmain := next_step_main steps env x hinit s' evs hn
    rw [if_pos (by omega)] at hmain
    obtain ⟨-, htool, -⟩ := hmain.2
    have : tooltipOrders evs = [] := by
      unfold tooltipOrders
      rw [htool]
      rfl
    rw [this]
    simp



theorem next_step_index_le (steps : List Step) (env : Env) (s0 : GuideState) :
    ∀ (s' : GuideState) (evs : List Event),
      next_step steps env s0 = some (s', evs) →
      s'.current_step_index ≤ max (s0.current_step_index + 1) (steps.length : Int) := by
  induction s0 using next_step.induct steps env with
  | case1 x s hlen =>
    intro s' evs h
    have hlen' : (steps.length : Int) ≤ (bumpIndex x).current_step_index := hlen
    rw [next_step.eq_1, dif_pos hlen', Option.some.injEq, Prod.mk.injEq] at h
    obtain ⟨h1, -⟩ := h
    subst h1
    simp
  | case2 x s hlen hget =>
    intro s' evs h
    have hlen' : ¬ (steps.length : Int) ≤ (bumpIndex x).current_step_index := hlen
    have hget' : pyGet steps (bumpIndex x).current_step_index = none := hget
    rw [next_step.eq_1, dif_neg hlen', hget'] at h
    exact absurd h (by simp)
  | case3 x s hlen st hget hfind hrec ih =>
    intro s' evs h
    have hlen' : ¬ (steps.length : Int) ≤ (bumpIndex x).current_step_index := hlen
    have hget' : pyGet steps (bumpIndex x).current_step_index = some st := hget
    have hrec' : next_step steps env (bumpIndex x) = none := hrec
    rw [next_step.eq_1, dif_neg hlen', hget'] at h
    simp only [hfind] at h
    rw [hrec'] at h
    exact absurd h (by simp)
  | case4 x s hlen st hget hfind s1 evs1 hrec ih =>
    intro s' evs h
    have hlen' : ¬ (steps.length : Int) ≤ (bumpIndex x).current_step_index := hlen
    have hget' : pyGet steps (bumpIndex x).current_step_index = some st := hget
    have hrec' : next_step steps env (bumpIndex x) = some (s1, evs1) := hrec
    have ih' : ∀ (s' : GuideState) (evs : List Event),
        next_step steps env (bumpIndex x) = some (s', evs) →
        s'.current_step_index ≤
          max ((bumpIndex x).current_step_index + 1) (steps.length : Int) := ih
    rw [next_step.eq_1, dif_neg hlen', hget'] at h
    simp only [hfind] at h
    rw [hrec', Option.some.injEq, Prod.mk.injEq] at h
    obtain ⟨h1, -⟩ := h
    subst h1
    have h2 := ih' s1 evs1 hrec'
    simp only [bumpIndex_current_step_index] at h2 hlen'
    omega
  | case5 x s hlen st hget w hfind =>
    intro s' evs h
    have hlen' : ¬ (steps.length : Int) ≤ (bumpIndex x).current_step_index := hlen
    have hget' : pyGet steps (bumpIndex x).current_step_index = some st := hget
    rw [next_step.eq_1, dif_neg hlen', hget'] at h
    simp only [hfind] at h
    rw [Option.some.injEq, Prod.mk.injEq] at h
    obtain ⟨h1, -⟩ := h
    subst h1
    simp

/-- The host environment of the bundled sample when no widgets resolve:
used to instantiate hypotheses of proved theorems at concrete inputs. -/
def env0 : Env :=
  { findChild := fun _ => none, callable := fun _ => false, raises := fun _ => false }

/-- A concrete base style-sheet assignment (all style sheets empty). -/
def base0 : String → String := fun _ => ""

/-- C1: the constructor sorts the configured steps ascending by their
`order` key (default `0`), and a full run visits steps by strictly
increasing index of that sorted list, so the `order` values of the
displayed steps are non-decreasing. -/
theorem steps_visited_in_nondecreasing_order (gd : GuideData) (env : Env)
    (base : String → String) :
    ∃ (sf : GuideState) (evs : List Event),
      run_to_completion (initSteps gd) env (initState base) = some (sf, evs) ∧
      List.Pairwise (· ≤ ·) (tooltipOrders evs) := by
  have hsort : (initSteps gd).Pairwise (fun a b => stepKey a ≤ stepKey b) := by
    have h := @List.sorted_mergeSort Step
      (fun a b => decide (stepKey a ≤ stepKey b))
      (by intro a b c hab hbc
          simp only [decide_eq_true_eq] at hab hbc ⊢
          omega)
      (by intro a b
          simp only [Bool.or_eq_true, decide_eq_true_eq]
          omega)
      gd.steps
    exact h.imp (by intro a b hab; simpa using hab)
  have hinit : -1 ≤ (initState base).current_step_index := le_refl _
  have hs := run_to_completion_isSome (initSteps gd) env (initState base) hinit
  rw [Option.isSome_iff_exists] at hs
  obtain ⟨⟨sf, evs⟩, hrun⟩ := hs
  obtain ⟨hpw, -⟩ :=
    run_to_completion_sorted_visits (initSteps gd) env hsort (initState base)
      hinit sf evs hrun
  exact ⟨sf, evs, hrun, hpw⟩

/-- C2: every guide run advanced to completion shows the completion
(outro) dialog, and shows it exactly once. -/
theorem outro_shown_exactly_once (gd : GuideData) (env : Env)
    (base : String → String) :
    ∃ (sf : GuideState) (evs : List Event),
      run_to_completion (initSteps gd) env (initState base) = some (sf, evs) ∧
      evs.countP isOutro = 1 := by
  have hinit : -1 ≤ (initState base).current_step_index := le_refl _
  have hs := run_to_completion_isSome (initSteps gd) env (initState base) hinit
  rw [Option.isSome_iff_exists] at hs
  obtain ⟨⟨sf, evs⟩, hrun⟩ := hs
  exact ⟨sf, evs, hrun,
    run_to_completion_outro_once (initSteps gd) env (initState base) hinit sf evs hrun⟩

/-- C3: from any reachable cursor position, `next_step` terminates with a
result: the cursor strictly increases, stays bounded by the step-list
length, and the call ends at a displayed step or at the completion
dialog, so skipping missing widgets never blocks progress. -/
theorem next_step_terminates (steps : List Step) (env : Env) (s0 : GuideState)
    (hinit : -1 ≤ s0.current_step_index)
    (hlt : s0.current_step_index < (steps.length : Int)) :
    ∃ (s' : GuideState) (evs : List Event),
      next_step steps env s0 = some (s', evs) ∧
      s0.current_step_index < s'.current_step_index ∧
      s'.current_step_index ≤ (steps.length : Int) ∧
      (Event.outroDialog ∈ evs ∨ ∃ w st, Event.tooltip w st ∈ evs) := by
  have hs := next_step_isSome steps env s0 hinit
  rw [Option.isSome_iff_exists] at hs
  obtain ⟨⟨s', evs⟩, h⟩ := hs
  have hidx := next_step_index_lt steps env s0 s' evs h
  have hle := next_step_index_le steps env s0 s' evs h
  have hmain := next_step_main steps env s0 hinit s' evs h
  refine ⟨s', evs, h, hidx, by omega, ?_⟩
  obtain ⟨-, hif⟩ := hmain
  by_cases hc : (steps.length : Int) ≤ s'.current_step_index
  · rw [if_pos hc] at hif
    exact Or.inl hif.2.2.1
  · rw [if_neg hc] at hif
    obtain ⟨-, -, st, w, -, -, hmem, -⟩ := hif
    exact Or.inr ⟨w, st, hmem⟩

/-- Witness for `next_step_terminates` at a concrete input. -/
theorem next_step_terminates_witness :
    (-1 ≤ (initState base0).current_step_index ∧
      (initState base0).current_step_index <
        (([] : List Step).length : Int)) ∧
    ∃ (s' : GuideState) (evs : List Event),
      next_step [] env0 (initState base0) = some (s', evs) ∧
      (initState base0).current_step_index < s'.current_step_index ∧
      s'.current_step_index ≤ (([] : List Step).length : Int) ∧
      (Event.outroDialog ∈ evs ∨ ∃ w st, Event.tooltip w st ∈ evs) :=
  ⟨⟨by decide, by decide⟩,
    next_step_terminates [] env0 (initState base0) (by decide) (by decide)⟩

/-- C5: highlighting a widget then restoring returns every style sheet,
and in particular the highlighted widget's, to its pre-highlight value. -/
theorem highlight_restore_roundtrip (s : GuideState) (w : String) :
    (restore_widget_style (highlight_widget s w)).styles = s.styles ∧
    (restore_widget_style (highlight_widget s w)).styles w = s.styles w := by
  rw [restore_widget_style_current_widget_of_highlighted
    (highlight_widget s w) w (s.styles w) rfl rfl]
  constructor
  · funext v
    by_cases hv : v = w
    · subst hv
      simp
    · simp [hv, highlight_widget]
  · simp



theorem pyGet_lt {α : Type} (xs : List α) (i : Int) (a : α) (h : pyGet xs i = some a) :
    i < (xs.length : Int) := by
  unfold pyGet at h
  split at h
  · rw [List.get?_eq_some] at h
    obtain ⟨hlt, -⟩ := h
    omega
  · split at h
    · omega
    · exact absurd h (by simp)

/-- A one-step configuration whose pre-action attribute is not callable
but whose target widget exists. -/
def stepC4 : Step :=
  { order := some 0, object_name := some "w", pre_action := some "p",
    description := none, image := none }

/-- Host oracles for `stepC4`: the widget `"w"` resolves, nothing is
callable. -/
def envC4 : Env :=
  { findChild := fun n => if n = some "w" then some "w" else none,
    callable := fun _ => false, raises := fun _ => false }

/-- C4 (amended): when a step's pre-action fails (not callable, or
raising), a warning is logged and the tour does not halt, but the step is
not skipped: execution falls through to the widget lookup, and when the
target widget exists this same step is highlighted and displayed. -/
theorem pre_action_failure_logged_tour_continues
    (steps : List Step) (env : Env) (s0 : GuideState) (st : Step) (pa w : String)
    (hget : pyGet steps (s0.current_step_index + 1) = some st)
    (hpa : st.pre_action = some pa) (hne : ¬ pa = "")
    (hfail : env.callable pa = false ∨ env.raises pa = true)
    (hfind : env.findChild st.object_name = some w) :
    next_step steps env s0 =
      some (highlight_widget (bumpIndex s0) w,
        runPreAction env st.pre_action ++
          [Event.highlightEvent w, Event.tooltip w st]) ∧
    (Event.warnPreActionNotCallable pa ∈ runPreAction env st.pre_action ∨
      Event.warnPreActionFailed pa ∈ runPreAction env st.pre_action) := by
  constructor
  · rw [next_step.eq_1,
      dif_neg (by have := pyGet_lt steps _ st hget
                  simp only [bumpIndex_current_step_index]
                  omega)]
    simp only [bumpIndex_current_step_index, hget, hfind]
  · rcases hfail with hc | hr
    · rw [hpa]
      simp only [runPreAction]
      rw [if_neg hne, if_neg (by simp [hc])]
      simp
    · by_cases hc2 : env.callable pa
      · rw [hpa]
        simp only [runPreAction]
        rw [if_neg hne, if_pos hc2, if_pos hr]
        simp
      · rw [hpa]
        simp only [runPreAction]
        rw [if_neg hne, if_neg hc2]
        simp

/-- Witness for `pre_action_failure_logged_tour_continues` at a concrete
input: one step with a non-callable pre-action and an existing widget. -/
theorem pre_action_failure_logged_tour_continues_witness :
    (pyGet [stepC4] ((initState base0).current_step_index + 1) = some stepC4 ∧
      stepC4.pre_action = some "p" ∧ ¬ "p" = "" ∧
      (envC4.callable "p" = false ∨ envC4.raises "p" = true) ∧
      envC4.findChild stepC4.object_name = some "w") ∧
    (next_step [stepC4] envC4 (initState base0) =
      some (highlight_widget (bumpIndex (initState base0)) "w",
        runPreAction envC4 stepC4.pre_action ++
          [Event.highlightEvent "w", Event.tooltip "w" stepC4]) ∧
    (Event.warnPreActionNotCallable "p" ∈ runPreAction envC4 stepC4.pre_action ∨
      Event.warnPreActionFailed "p" ∈ runPreAction envC4 stepC4.pre_action)) :=
  ⟨⟨by decide, rfl, by decide, Or.inl rfl, by decide⟩,
    pre_action_failure_logged_tour_continues [stepC4] envC4 (initState base0)
      stepC4 "p" "w" (by decide) rfl (by decide) (Or.inl rfl) (by decide)⟩

/-- Counterexample to C4 as stated: with a failing (non-callable)
pre-action and an existing target widget, the step is not skipped — the
very step whose pre-action failed is highlighted and displayed, and the
cursor stops at its index instead of advancing past it. -/
theorem pre_action_failure_skips_step_counterexample :
    (next_step [stepC4] envC4 (initState base0)).map
        (fun r => (r.1.current_step_index, r.2)) =
      some (0, [Event.warnPreActionNotCallable "p", Event.highlightEvent "w",
        Event.tooltip "w" stepC4]) ∧
    ¬ (next_step [stepC4] envC4 (initState base0)).map (fun r => tooltipSteps r.2) =
        some [] := by
  constructor
  · rw [next_step.eq_1]
    decide
  · rw [next_step.eq_1]
    decide

/-- A one-step configuration with a callable pre-action and a missing
target widget. -/
def stepC10 : Step :=
  { order := some 0, object_name := some "w", pre_action := some "p",
    description := none, image := none }

/-- Host oracles for `stepC10`: no widget resolves, every attribute is
callable and none raises. -/
def envC10 : Env :=
  { findChild := fun _ => none, callable := fun _ => true, raises := fun _ => false }

/-- C10: the pre-action is executed before the target-widget lookup, so
when the pre-action is defined and callable and the widget is missing,
the pre-action call still happens (it precedes the widget-missing warning
in the trace) even though the step is skipped: the cursor moves strictly
past the step's own index. -/
theorem pre_action_runs_before_widget_lookup
    (steps : List Step) (env : Env) (s0 : GuideState) (st : Step) (pa : String)
    (hinit : -1 ≤ s0.current_step_index)
    (hget : pyGet steps (s0.current_step_index + 1) = some st)
    (hpa : st.pre_action = some pa) (hne : ¬ pa = "")
    (hcall : env.callable pa = true)
    (hfind : env.findChild st.object_name = none) :
    ∃ (s' : GuideState) (rest : List Event),
      next_step steps env s0 =
        some (s', runPreAction env st.pre_action ++
          Event.warnWidgetNotFound st.object_name :: rest) ∧
      Event.preActionCall pa ∈ runPreAction env st.pre_action ∧
      s0.current_step_index + 1 < s'.current_step_index := by
  have hrec := next_step_isSome steps env (bumpIndex s0) (by simp; omega)
  rw [Option.isSome_iff_exists] at hrec
  obtain ⟨⟨s1, evs1⟩, hr⟩ := hrec
  refine ⟨s1, evs1, ?_, ?_, ?_⟩
  · rw [next_step.eq_1,
      dif_neg (by have := pyGet_lt steps _ st hget
                  simp only [bumpIndex_current_step_index]
                  omega)]
    simp only [bumpIndex_current_step_index, hget, hfind, hr]
  · rw [hpa]
    simp only [runPreAction]
    rw [if_neg hne, if_pos hcall]
    by_cases hrs : env.raises pa <;> simp [hrs]
  · have := next_step_index_lt steps env (bumpIndex s0) s1 evs1 hr
    simp only [bumpIndex_current_step_index] at this
    omega

/-- Witness for `pre_action_runs_before_widget_lookup` at a concrete
input: one step with a callable pre-action and a missing widget. -/
theorem pre_action_runs_before_widget_lookup_witness :
    (-1 ≤ (initState base0).current_step_index ∧
      pyGet [stepC10] ((initState base0).current_step_index + 1) = some stepC10 ∧
      stepC10.pre_action = some "p" ∧ ¬ "p" = "" ∧
      envC10.callable "p" = true ∧
      envC10.findChild stepC10.object_name = none) ∧
    ∃ (s' : GuideState) (rest : List Event),
      next_step [stepC10] envC10 (initState base0) =
        some (s', runPreAction envC10 stepC10.pre_action ++
          Event.warnWidgetNotFound stepC10.object_name :: rest) ∧
      Event.preActionCall "p" ∈ runPreAction envC10 stepC10.pre_action ∧
      (initState base0).current_step_index + 1 < s'.current_step_index :=
  ⟨⟨by decide, by decide, rfl, by decide, rfl, rfl⟩,
    pre_action_runs_before_widget_lookup [stepC10] envC10 (initState base0)
      stepC10 "p" (by decide) (by decide) rfl (by decide) rfl rfl⟩



/-- C6: the tooltip dialog is placed vertically below the widget (the
widget's global bottom plus 10) exactly when the widget's global center y
(as Qt computes it) is strictly less than the host window's global center
y (as the code computes it, `pgy + ph // 2`); otherwise it is placed
above the widget (global top minus dialog height minus 10). -/
theorem tooltip_below_iff_widget_in_upper_half
    (ww wh wgx wgy pw ph pgx pgy dw dh : Int) (hwh : 0 ≤ wh) (hdh : 0 ≤ dh) :
    ((calculate_tooltip_position ww wh wgx wgy pw ph pgx pgy dw dh).y =
        wgy + (QRect.mk 0 0 ww wh).bottomLeft.y + 10 ↔
      wgy + (QRect.mk 0 0 ww wh).center.y < pgy + Int.fdiv ph 2) ∧
    ((calculate_tooltip_position ww wh wgx wgy pw ph pgx pgy dw dh).y =
        wgy + (QRect.mk 0 0 ww wh).topLeft.y - dh - 10 ↔
      ¬ wgy + (QRect.mk 0 0 ww wh).center.y < pgy + Int.fdiv ph 2) := by
  simp only [calculate_tooltip_position, QRect.center, QRect.bottomLeft, QRect.topLeft]
  by_cases hc : wgy + Int.tdiv (0 + (0 + wh - 1)) 2 < pgy + 0 + Int.fdiv ph 2
  · rw [if_pos hc]
    constructor
    · constructor
      · intro _
        simpa using hc
      · intro _
        rfl
    · constructor
      · intro heq
        exact absurd (by omega : False) id
      · intro hn
        exact absurd (by simpa using hc) hn
  · rw [if_neg hc]
    constructor
    · constructor
      · intro heq
        exact absurd (by omega : False) id
      · intro hlt
        exact absurd (by simpa using hlt) hc
    · constructor
      · intro _
        simpa using hc
      · intro _
        rfl



/-- Witness for `tooltip_below_iff_widget_in_upper_half` at a concrete
input. -/
theorem tooltip_below_iff_widget_in_upper_half_witness :
    ((0 : Int) ≤ 20 ∧ (0 : Int) ≤ 40) ∧
    (((calculate_tooltip_position 30 20 5 5 300 200 0 0 50 40).y =
        5 + (QRect.mk 0 0 30 20).bottomLeft.y + 10 ↔
      5 + (QRect.mk 0 0 30 20).center.y < 0 + Int.fdiv 200 2) ∧
    ((calculate_tooltip_position 30 20 5 5 300 200 0 0 50 40).y =
        5 + (QRect.mk 0 0 30 20).topLeft.y - 40 - 10 ↔
      ¬ 5 + (QRect.mk 0 0 30 20).center.y < 0 + Int.fdiv 200 2)) :=
  ⟨⟨by decide, by decide⟩,
    tooltip_below_iff_widget_in_upper_half 30 20 5 5 300 200 0 0 50 40
      (by decide) (by decide)⟩

/-- C7 (amended): the horizontal position starts from the widget's global
center x minus half the dialog width and is returned unchanged when that
keeps the dialog inside the host; the clamped corrections keep the dialog
inside the host bounds provided the dialog is at least 10 units narrower
than the host window (`dw + 10 ≤ pw`). -/
theorem tooltip_horizontally_clamped
    (ww wh wgx wgy pw ph pgx pgy dw dh : Int) (hdw : dw + 10 ≤ pw) :
    pgx ≤ (calculate_tooltip_position ww wh wgx wgy pw ph pgx pgy dw dh).x ∧
    (calculate_tooltip_position ww wh wgx wgy pw ph pgx pgy dw dh).x + dw ≤ pgx + pw ∧
    (pgx ≤ wgx + (QRect.mk 0 0 ww wh).center.x - Int.fdiv dw 2 ∧
      wgx + (QRect.mk 0 0 ww wh).center.x - Int.fdiv dw 2 + dw ≤ pgx + pw →
      (calculate_tooltip_position ww wh wgx wgy pw ph pgx pgy dw dh).x =
        wgx + (QRect.mk 0 0 ww wh).center.x - Int.fdiv dw 2) := by
  simp only [calculate_tooltip_position, QRect.center, QRect.topLeft, QRect.bottomLeft]
  by_cases h1 : wgx + Int.tdiv (0 + (0 + ww - 1)) 2 - Int.fdiv dw 2 < pgx + 0
  · rw [if_pos h1]
    refine ⟨by omega, by omega, ?_⟩
    intro ⟨ha, hb⟩
    omega
  · rw [if_neg h1]
    by_cases h2 : pgx + 0 + pw < wgx + Int.tdiv (0 + (0 + ww - 1)) 2 - Int.fdiv dw 2 + dw
    · rw [if_pos h2]
      refine ⟨by omega, by omega, ?_⟩
      intro ⟨ha, hb⟩
      omega
    · rw [if_neg h2]
      exact ⟨by omega, by omega, fun _ => by omega⟩

/-- Witness for `tooltip_horizontally_clamped` at a concrete input. -/
theorem tooltip_horizontally_clamped_witness :
    ((50 : Int) + 10 ≤ 300) ∧
    ((0 : Int) ≤ (calculate_tooltip_position 30 20 5 5 300 200 0 0 50 40).x ∧
    (calculate_tooltip_position 30 20 5 5 300 200 0 0 50 40).x + 50 ≤ 0 + 300 ∧
    ((0 : Int) ≤ 5 + (QRect.mk 0 0 30 20).center.x - Int.fdiv 50 2 ∧
      5 + (QRect.mk 0 0 30 20).center.x - Int.fdiv 50 2 + 50 ≤ 0 + 300 →
      (calculate_tooltip_position 30 20 5 5 300 200 0 0 50 40).x =
        5 + (QRect.mk 0 0 30 20).center.x - Int.fdiv 50 2)) :=
  ⟨by decide, tooltip_horizontally_clamped 30 20 5 5 300 200 0 0 50 40 (by decide)⟩

/-- Counterexample to C7 as stated: with a dialog wider than the host
window (dialog width 200, host width 100), the returned x (clamped to
`pgx + 10`) still leaves the dialog extending past the host's right
edge, so the dialog is not always horizontally inside the host. -/
theorem tooltip_clamping_counterexample :
    (calculate_tooltip_position 1 1 0 0 100 100 0 0 200 50).x = 10 ∧
    ¬ ((calculate_tooltip_position 1 1 0 0 100 100 0 0 200 50).x + 200 ≤ 0 + 100) := by
  constructor
  · decide
  · decide

/-- C8: during a run, `current_step_index` never decreases: it starts at
`-1`, `next_step`, `next_step_action` and `start` strictly increase it,
and `restore_widget_style` and `skip_guide_action` leave it unchanged. -/
theorem current_step_index_monotone
    (steps : List Step) (env : Env) (s s1 s2 s3 : GuideState)
    (evs1 evs2 evs3 : List Event)
    (h1 : next_step steps env s = some (s1, evs1))
    (h2 : next_step_action steps env s = some (s2, evs2))
    (h3 : start steps env s = some (s3, evs3)) :
    (∀ base, (initState base).current_step_index = -1) ∧
    s.current_step_index < s1.current_step_index ∧
    s.current_step_index < s2.current_step_index ∧
    s.current_step_index < s3.current_step_index ∧
    (restore_widget_style s).current_step_index = s.current_step_index ∧
    (skip_guide_action s).1.current_step_index = s.current_step_index := by
  refine ⟨fun _ => rfl, next_step_index_lt steps env s s1 evs1 h1, ?_, ?_,
    restore_widget_style_current_step_index s,
    restore_widget_style_current_step_index s⟩
  · have := next_step_index_lt steps env (restore_widget_style s) s2 evs2 h2
    rwa [restore_widget_style_current_step_index] at this
  · unfold start at h3
    rw [h1, Option.some.injEq, Prod.mk.injEq] at h3
    obtain ⟨hh, -⟩ := h3
    subst hh
    exact next_step_index_lt steps env s s1 evs1 h1

/-- Witness for `current_step_index_monotone` at a concrete input. -/
theorem current_step_index_monotone_witness :
    (next_step [] env0 (initState base0) =
        some (bumpIndex (initState base0), [Event.outroDialog]) ∧
      next_step_action [] env0 (initState base0) =
        some (bumpIndex (initState base0), [Event.outroDialog]) ∧
      start [] env0 (initState base0) =
        some (bumpIndex (initState base0),
          [Event.introDialog, Event.outroDialog])) ∧
    ((∀ base, (initState base).current_step_index = -1) ∧
    (initState base0).current_step_index <
      (bumpIndex (initState base0)).current_step_index ∧
    (initState base0).current_step_index <
      (bumpIndex (initState base0)).current_step_index ∧
    (initState base0).current_step_index <
      (bumpIndex (initState base0)).current_step_index ∧
    (restore_widget_style (initState base0)).current_step_index =
      (initState base0).current_step_index ∧
    (skip_guide_action (initState base0)).1.current_step_index =
      (initState base0).current_step_index) := by
  have hh1 : next_step [] env0 (initState base0) =
      some (bumpIndex (initState base0), [Event.outroDialog]) := by
    rw [next_step.eq_1, dif_pos (by decide)]
  have hh2 : next_step_action [] env0 (initState base0) =
      some (bumpIndex (initState base0), [Event.outroDialog]) := by
    show next_step [] env0 (restore_widget_style (initState base0)) = _
    rw [next_step.eq_1, dif_pos (by decide)]
    rfl
  have hh3 : start [] env0 (initState base0) =
      some (bumpIndex (initState base0), [Event.introDialog, Event.outroDialog]) := by
    simp only [start, hh1]
  exact ⟨⟨hh1, hh2, hh3⟩,
    current_step_index_monotone [] env0 (initState base0) _ _ _ _ _ _ hh1 hh2 hh3⟩



/-- The style-bookkeeping invariant: either no widget is highlighted and
every style sheet equals the base UI style, or exactly the recorded
widget is highlighted, its original (base) style is saved for
restoration, and every other widget keeps its base style. -/
def StyleInv (base : String → String) (s : GuideState) : Prop :=
  match s.current_widget with
  | none => s.current_widget_original_style = none ∧ s.styles = base
  | some w => s.current_widget_original_style = some (base w) ∧
      s.styles w = highlightStyle ∧ ∀ v, v ≠ w → s.styles v = base v

/-- States reachable in a guide run over a widget tree whose style sheets
are `base`: the freshly constructed state, the state after `start` (intro
dialog plus first advance), and the states after the user presses "Next"
(`next_step_action`) or "Skip Guide" (`skip_guide_action`). -/
inductive Reachable (steps : List Step) (env : Env) (base : String → String) :
    GuideState → Prop where
  | init : Reachable steps env base (initState base)
  | started (s' : GuideState) (evs : List Event)
      (h : start steps env (initState base) = some (s', evs)) :
      Reachable steps env base s'
  | pressedNext (s s' : GuideState) (evs : List Event)
      (hs : Reachable steps env base s)
      (h : next_step_action steps env s = some (s', evs)) :
      Reachable steps env base s'
  | pressedSkip (s : GuideState) (hs : Reachable steps env base s) :
      Reachable steps env base (skip_guide_action s).1

theorem restore_widget_style_StyleInv (base : String → String) (s : GuideState)
    (h : StyleInv base s) :
    (restore_widget_style s).current_widget = none ∧
    (restore_widget_style s).current_widget_original_style = none ∧
    (restore_widget_style s).styles = base := by
  unfold StyleInv at h
  cases hw : s.current_widget with
  | none =>
    rw [hw] at h
    obtain ⟨ho, hs⟩ := h
    have hr : restore_widget_style s = s := by
      unfold restore_widget_style
      rw [hw, ho]
    rw [hr]
    exact ⟨hw, ho, hs⟩
  | some w =>
    rw [hw] at h
    obtain ⟨ho, hsw, hother⟩ := h
    unfold restore_widget_style
    rw [hw, ho]
    refine ⟨rfl, rfl, funext fun v => ?_⟩
    by_cases hv : v = w
    · subst hv
      simp
    · simp only [if_neg hv]
      exact hother v hv

theorem next_step_StyleInv (steps : List Step) (env : Env) (base : String → String)
    (s0 s' : GuideState) (evs : List Event)
    (hinit : -1 ≤ s0.current_step_index)
    (hw : s0.current_widget = none)
    (ho : s0.current_widget_original_style = none)
    (hstyles : s0.styles = base)
    (h : next_step steps env s0 = some (s', evs)) :
    StyleInv base s' := by
  have hmain := next_step_main steps env s0 hinit s' evs h
  obtain ⟨-, hif⟩ := hmain
  unfold StyleInv
  by_cases hc : (steps.length : Int) ≤ s'.current_step_index
  · rw [if_pos hc] at hif
    obtain ⟨-, -, -, hw', ho', hs'⟩ := hif
    rw [hw', hw]
    exact ⟨by rw [ho', ho], by rw [hs', hstyles]⟩
  · rw [if_neg hc] at hif
    obtain ⟨-, -, st, w, -, -, -, hw', ho', hs'⟩ := hif
    rw [hw']
    refine ⟨by rw [ho', hstyles], ?_, ?_⟩
    · rw [hs']
      simp
    · intro v hv
      rw [hs']
      simp only [if_neg hv]
      rw [hstyles]

/-- C9: in every reachable state of a guide run at most one widget's
style sheet differs from its base value, that widget is exactly the
recorded `current_widget`, and its original style is saved so it can be
restored; the cursor never moves below `-1`.  "Next" restores the
previous highlight before `next_step` highlights another widget, and
"Skip" restores it before ending the run. -/
theorem at_most_one_widget_highlighted (steps : List Step) (env : Env)
    (base : String → String) (s : GuideState)
    (h : Reachable steps env base s) :
    -1 ≤ s.current_step_index ∧ StyleInv base s ∧
    ∀ v₁ v₂, s.styles v₁ ≠ base v₁ → s.styles v₂ ≠ base v₂ → v₁ = v₂ := by
  have key : -1 ≤ s.current_step_index ∧ StyleInv base s := by
    induction h with
    | init =>
      exact ⟨le_refl _, rfl, rfl⟩
    | started s' evs h =>
      unfold start at h
      cases hn : next_step steps env (initState base) with
      | none =>
        rw [hn] at h
        exact absurd h (by simp)
      | some r =>
        obtain ⟨s1, evs1⟩ := r
        rw [hn, Option.some.injEq, Prod.mk.injEq] at h
        obtain ⟨hh, -⟩ := h
        subst hh
        have hlt := next_step_index_lt steps env (initState base) s1 evs1 hn
        refine ⟨by exact le_of_lt (lt_of_le_of_lt (by norm_num [initState]) hlt), ?_⟩
        exact next_step_StyleInv steps env base (initState base) s1 evs1
          (le_refl _) rfl rfl rfl hn
    | pressedNext s s' evs hs h ih =>
      obtain ⟨hidx, hinv⟩ := ih
      obtain ⟨hw, ho, hstyles⟩ := restore_widget_style_StyleInv base s hinv
      have hidx' : -1 ≤ (restore_widget_style s).current_step_index := by
        rw [restore_widget_style_current_step_index]
        exact hidx
      have hlt := next_step_index_lt steps env (restore_widget_style s) s' evs h
      rw [restore_widget_style_current_step_index] at hlt
      refine ⟨by omega, ?_⟩
      exact next_step_StyleInv steps env base (restore_widget_style s) s' evs
        hidx' hw ho hstyles h
    | pressedSkip s hs ih =>
      obtain ⟨hidx, hinv⟩ := ih
      obtain ⟨hw, ho, hstyles⟩ := restore_widget_style_StyleInv base s hinv
      rw [show (skip_guide_action s).1 = restore_widget_style s from rfl]
      refine ⟨by rw [restore_widget_style_current_step_index]; exact hidx, ?_⟩
      unfold StyleInv
      rw [hw]
      exact ⟨ho, hstyles⟩
  obtain ⟨hidx, hinv⟩ := key
  refine ⟨hidx, hinv, ?_⟩
  intro v₁ v₂ h1 h2
  unfold StyleInv at hinv
  cases hw : s.current_widget with
  | none =>
    rw [hw] at hinv
    exact absurd (congrFun hinv.2 v₁) h1
  | some w =>
    rw [hw] at hinv
    obtain ⟨-, -, hother⟩ := hinv
    by_cases hv1 : v₁ = w
    · by_cases hv2 : v₂ = w
      · rw [hv1, hv2]
      · exact absurd (hother v₂ hv2) h2
    · exact absurd (hother v₁ hv1) h1

/-- Witness for `at_most_one_widget_highlighted` at a concrete reachable
state. -/
theorem at_most_one_widget_highlighted_witness :
    -1 ≤ (initState base0).current_step_index ∧ StyleInv base0 (initState base0) ∧
    ∀ v₁ v₂, (initState base0).styles v₁ ≠ base0 v₁ →
      (initState base0).styles v₂ ≠ base0 v₂ → v₁ = v₂ :=
  at_most_one_widget_highlighted [] env0 base0 (initState base0) Reachable.init


end QtGuidedUI
